import Mathlib

/-!
Verification development for the naver-smartshop scraper.

Shallow embedding of the acquisition-and-extraction pipeline:
  - src/services/naver/components/fetcher.ts        (ProductFetcher)
  - src/services/scraping/components/ProductParser.ts (ProductParser)
  - NaverScraper.scrapeMultipleProducts              (batch orchestration)

Conventions of the embedding:
  - JavaScript strings are Lean `String`; `.length` is the codepoint count
    (identical to the UTF-16 unit count for the BMP characters appearing here).
  - A missing / undefined string attribute is modelled as the empty string,
    which matches the JavaScript falsiness tests (`if (s)`) used by the code.
  - Machine numbers are `Nat`; the single floating point comparison
    `x < y * 0.9` is modelled by the exact integer test `10 * x < 9 * y`.
  - Promises/awaits carry no semantic content here; the transport is an
    oracle `Nat → AttemptOutcome` giving the outcome of each HTTP attempt,
    and fetch results are `Except AppError _` together with the number of
    attempts actually issued.
-/

/-- Typed error of src/middleware/errorHandler.ts: a message plus an HTTP-like
status code used by the scraper for classification. -/
structure AppError where
  message : String
  statusCode : Nat
deriving DecidableEq

/-- Substring test over char lists, modelling JavaScript
`String.prototype.includes`. -/
def listInfixOf (needle : List Char) : List Char → Bool
  | [] => needle.isEmpty
  | c :: rest => needle.isPrefixOf (c :: rest) || listInfixOf needle rest

/-- JavaScript `s.includes(sub)`. -/
def strIncludes (s sub : String) : Bool := listInfixOf sub.data s.data

/-- JavaScript `s.startsWith(p)`. -/
def strStartsWith (s p : String) : Bool := p.data.isPrefixOf s.data

/-- JavaScript `a || b` on strings (empty string is falsy). -/
def jsStrOr (a b : String) : String := if a = "" then b else a

/-- JavaScript whitespace for the purposes of the `\s` class and `trim` as
used by this code base. -/
def jsSpace (c : Char) : Bool := c = ' ' ∨ c = '\t' ∨ c = '\n' ∨ c = '\r'

/-- JavaScript `s.trim()`: drop leading and trailing whitespace. -/
def jsTrim (s : String) : String :=
  ⟨((s.data.dropWhile jsSpace).reverse.dropWhile jsSpace).reverse⟩

/-! ## Page fetcher (src/services/naver/components/fetcher.ts) -/

/-- The components of a parsed URL that `isValidNaverProductUrl` inspects.
`new URL(url)` is library code; an unparseable input is modelled as `none`
(the code's `catch \x7b return false; \x7d`). -/
structure UrlParts where
  protocol : String
  hostname : String
  pathname : String
deriving DecidableEq

/-- ProductFetcher.isValidNaverProductUrl: hostname must be
smartstore.naver.com and the path must contain "/products/".
The protocol is not inspected by the source. -/
def isValidNaverProductUrl : Option UrlParts → Bool
  | none => false
  | some u => u.hostname == "smartstore.naver.com" && strIncludes u.pathname "/products/"

/-- Axios error codes distinguished by the catch block of fetchProductPage.
`badResponse` stands for an axios rejection carrying an HTTP response
(status ≥ 500, per the `validateStatus: status < 500` configuration) or any
other axios failure that is none of the three named codes; the code's
`error.message.includes("timeout")` test is folded into `etimedout`. -/
inductive NetCode
  | enotfound
  | econnrefused
  | etimedout
  | badResponse
deriving DecidableEq

/-- Transport outcome of one HTTP attempt: either axios resolves with a
response (status, whether content-type includes text/html, body), or axios
rejects with an error code. -/
inductive AttemptOutcome
  | response (status : Nat) (htmlContentType : Bool) (body : String)
  | axiosFailure (code : NetCode)
deriving DecidableEq

/-- Successful fetch payload (FetchResult), reduced to the fields the
pipeline consumes. -/
structure FetchResult where
  data : String
  status : Nat
deriving DecidableEq

/-- ProductFetcher.handleHttpStatus: maps an HTTP status to the AppError it
throws, or `none` when it returns normally (status < 400). -/
def handleHttpStatus (status : Nat) : Option AppError :=
  if status = 429 then some ⟨"Too many requests - rate limited by server", 429⟩
  else if status = 404 then some ⟨"Product not found", 404⟩
  else if status = 403 then some ⟨"Access forbidden - possible bot detection", 403⟩
  else if status = 503 then some ⟨"Service unavailable", 503⟩
  else if 400 ≤ status then some ⟨"HTTP error " ++ toString status, status⟩
  else none

/-- What the catch block of fetchProductPage receives: either an AppError
thrown inside the try block, or an axios error. -/
inductive CaughtError
  | app (e : AppError)
  | axios (code : NetCode)
deriving DecidableEq

/-- The try block of one attempt of fetchProductPage: deliver the response
(or axios error), run handleHttpStatus, then the content-type check. -/
def attemptOnce : AttemptOutcome → Except CaughtError FetchResult
  | .axiosFailure c => .error (.axios c)
  | .response status html body =>
    match handleHttpStatus status with
    | some e => .error (.app e)
    | none =>
      if html then .ok ⟨body, status⟩
      else .error (.app ⟨"Response is not HTML content", 400⟩)

/-- Control decision taken by the catch block of fetchProductPage. -/
inductive CatchAction
  | throwNow (e : AppError)
  | breakLoop
  | continueLoop
deriving DecidableEq

/-- The catch block of fetchProductPage, as a function of the retry budget,
the current attempt number (1-based) and the caught error. -/
def catchAction (retries attempt : Nat) : CaughtError → CatchAction
  | .app a =>
    if a.statusCode = 404 ∨ a.statusCode = 400 then .throwNow a
    else if a.statusCode = 429 ∧ attempt ≤ retries then .continueLoop
    else if retries < attempt then .breakLoop
    else .continueLoop
  | .axios c =>
    match c with
    | .enotfound => .throwNow ⟨"Product page not found", 404⟩
    | .econnrefused => .throwNow ⟨"Connection refused by server", 503⟩
    | .etimedout =>
      if retries < attempt then .throwNow ⟨"Request timeout while fetching product page", 408⟩
      else .continueLoop
    | .badResponse => if retries < attempt then .breakLoop else .continueLoop

/-- The code after the retry loop of fetchProductPage: rethrow the last
error when it is an AppError, otherwise the generic failure. -/
def finalThrow : Option CaughtError → AppError
  | some (.app e) => e
  | _ => ⟨"Failed to fetch product page after multiple attempts", 500⟩

/-- The retry loop of fetchProductPage. `fuel` is the number of loop
iterations still permitted (`retries + 1 - (attempt - 1)` at entry),
`attempt` the 1-based attempt counter, and the `Option CaughtError` the
`lastError` variable. Returns the outcome together with the number of HTTP
attempts actually issued. -/
def fetchLoop (outcomes : Nat → AttemptOutcome) (retries : Nat) :
    Nat → Nat → Option CaughtError → Except AppError FetchResult × Nat
  | 0, _, last => (.error (finalThrow last), 0)
  | fuel + 1, attempt, _ =>
    match attemptOnce (outcomes attempt) with
    | .ok r => (.ok r, 1)
    | .error e =>
      match catchAction retries attempt e with
      | .throwNow a => (.error a, 1)
      | .breakLoop => (.error (finalThrow (some e)), 1)
      | .continueLoop =>
        let rest := fetchLoop outcomes retries fuel (attempt + 1) (some e)
        (rest.1, rest.2 + 1)

/-- ProductFetcher.fetchProductPage: URL validation followed by the retry
loop over `retries + 1` permitted attempts. -/
def fetchProductPage (url : Option UrlParts) (retries : Nat)
    (outcomes : Nat → AttemptOutcome) : Except AppError FetchResult × Nat :=
  if isValidNaverProductUrl url then fetchLoop outcomes retries (retries + 1) 1 none
  else (.error ⟨"Invalid Naver SmartStore product URL", 400⟩, 0)

/-- An attempt outcome is retryable when the catch block, on a non-final
attempt (attempt 1 of a budget with retries = 1), decides to continue. -/
def retryableOutcome (o : AttemptOutcome) : Bool :=
  match attemptOnce o with
  | .ok _ => false
  | .error e => if catchAction 1 1 e = .continueLoop then true else false

/-- The error fetchProductPage surfaces when its final attempt fails with
the given outcome: the AppError thrown from the catch block if it throws,
otherwise the post-loop rethrow of the last error. -/
def lastClassifiedFailure (o : AttemptOutcome) : AppError :=
  match attemptOnce o with
  | .ok _ => ⟨"", 0⟩
  | .error e =>
    match catchAction 0 1 e with
    | .throwNow a => a
    | _ => finalThrow (some e)

/-! ## Title extraction (ProductParser.extractTitle, validateProductData) -/

/-- The pieces of a document that extractTitle consumes: the ordered element
texts matched by the title selector cascade (flattened across selectors),
plus the three meta fallbacks coalesced by
`og:title attr || meta name=title attr || title tag text`
(empty string = absent, matching the JavaScript falsiness semantics). -/
structure TitleDoc where
  selectorTexts : List String
  ogTitle : String
  nameTitle : String
  titleTagText : String
deriving DecidableEq

/-- The coalesced meta title of extractTitle. -/
def metaTitleOf (d : TitleDoc) : String :=
  jsStrOr d.ogTitle (jsStrOr d.nameTitle d.titleTagText)

/-- Does the regex `\s*-\s*네이버` match at the head of `cs`? -/
def dashNaverAt (cs : List Char) : Bool :=
  match cs.dropWhile jsSpace with
  | '-' :: rest => "네이버".data.isPrefixOf (rest.dropWhile jsSpace)
  | _ => false

/-- Cut the input at the leftmost match of `\s*-\s*네이버.*$`
(the replacement with the empty string in extractTitle). -/
def stripFrom : List Char → List Char
  | [] => []
  | c :: rest => if dashNaverAt (c :: rest) then [] else c :: stripFrom rest

/-- Model of `metaTitle.trim().replace(/\s*-\s*네이버.*$/, "")` in extractTitle. -/
def stripNaverSuffix (s : String) : String := ⟨stripFrom s.data⟩

/-- The per-candidate plausibility filter of extractTitle:
`title && title.length > 3 && title.length < 200` on the trimmed text. -/
def goodSelectorTitle (t : String) : Bool :=
  decide (t ≠ "" ∧ 3 < t.length ∧ t.length < 200)

/-- ProductParser.extractTitle: first selector candidate passing the filter,
else the nonempty meta fallback with the Naver suffix stripped, else the
"Product title not found" AppError (status 404). -/
def extractTitle (d : TitleDoc) : Except AppError String :=
  match d.selectorTexts.find? (fun t => goodSelectorTitle (jsTrim t)) with
  | some t => .ok (jsTrim t)
  | none =>
    let mt := metaTitleOf d
    if mt ≠ "" ∧ jsTrim mt ≠ "" then .ok (stripNaverSuffix (jsTrim mt))
    else .error ⟨"Product title not found", 404⟩

/-- The title check of ProductParser.validateProductData:
`!data.title || data.title.length < 3` throws "Invalid product title" (400);
the price/image checks only log warnings. -/
def validateTitle (title : String) : Except AppError Unit :=
  if title = "" ∨ title.length < 3 then .error ⟨"Invalid product title", 400⟩
  else .ok ()

/-- extractTitle followed by validateProductData, the part of the
scrapeProduct pipeline that decides the returned title. -/
def titlePipeline (d : TitleDoc) : Except AppError String :=
  match extractTitle d with
  | .error e => .error e
  | .ok t =>
    match validateTitle t with
    | .error e => .error e
    | .ok _ => .ok t

/-! ## Price extraction (ProductParser.extractPrice) -/

/-- Does the element text carry one of the contextual discount markers
(할인 / 특가 / 세일 / ↓) tested by extractPrice? -/
def hasDiscountMarker (t : String) : Bool :=
  strIncludes t "할인" || strIncludes t "특가" || strIncludes t "세일" || strIncludes t "↓"

def isDigitOrComma (c : Char) : Bool := c.isDigit || c == ','

/-- Scanner for the global regex `[\d,]+원?`, character by character. The
first argument is the reversed run of digits and commas currently open
(`none` when outside a run); a run is closed by the end of input or by any
other character, taking one trailing 원 into the match when present. -/
def wonScanGo : Option (List Char) → List Char → List (List Char)
  | none, [] => []
  | some run, [] => [run.reverse]
  | none, c :: rest =>
    if isDigitOrComma c then wonScanGo (some [c]) rest else wonScanGo none rest
  | some run, c :: rest =>
    if isDigitOrComma c then wonScanGo (some (c :: run)) rest
    else if c = '원' then (run.reverse ++ ['원']) :: wonScanGo none rest
    else run.reverse :: wonScanGo none rest

/-- All matches of the global regex `[\d,]+원?` in a text, left to right:
each is a maximal run of digits and commas, optionally followed by one 원. -/
def wonScan (cs : List Char) : List (List Char) := wonScanGo none cs

/-- Model of `parseInt(match.replace(/[^\d]/g, ""))` in extractPrice. A match with no
digit gives NaN in the source and 0 here; both are then rejected by the
`priceValue > 0` guard. -/
def digitsValue (cs : List Char) : Nat :=
  (cs.filter Char.isDigit).foldl (fun n c => n * 10 + (c.toNat - 48)) 0

/-- The accumulating state of the collection loops of extractPrice:
`foundPrices`, the context-detected `discountedPrice`, and the first
`formattedPrice` snippet. -/
structure PriceAcc where
  foundPrices : List Nat
  discounted : Option Nat
  formatted : String
deriving DecidableEq

/-- Process the element text matched by one price selector: push every
positive numeric match, remember the first formatted snippet, and track the
smallest value whose text is contextually marked as a discount. -/
def collectText (text : String) (acc : PriceAcc) : PriceAcc :=
  (wonScan text.data).foldl
    (fun acc m =>
      let v := digitsValue m
      if 0 < v then
        { foundPrices := acc.foundPrices ++ [v]
          formatted := if acc.formatted = "" then String.mk m else acc.formatted
          discounted :=
            if hasDiscountMarker text then
              match acc.discounted with
              | none => some v
              | some d => if v < d then some v else some d
            else acc.discounted }
      else acc)
    acc

/-- The full collection pass of extractPrice over the ordered element texts
matched by the price selector cascade. -/
def collectPrices (texts : List String) : PriceAcc :=
  texts.foldl (fun acc t => collectText t acc) ⟨[], none, ""⟩

/-- Model of `foundPrices.sort((a, b) => b - a)`: descending sort. Any descending
sorted permutation of a Nat list is the same list, so insertion sort is an
exact model. -/
def sortDesc (l : List Nat) : List Nat := l.insertionSort (fun a b => a ≥ b)

/-- The price-resolution block of extractPrice ("Determine original and
discounted prices"): the maximum is the original; a context-marked discount
wins; otherwise the smallest price counts as discounted exactly when it is
strictly below 0.9 times the original (`lowest < original * 0.9`, in exact
integer arithmetic `10 * lowest < 9 * original`). -/
def resolvePrices (found : List Nat) (ctxDiscount : Option Nat) : Option Nat × Option Nat :=
  if 0 < found.length then
    let sorted := sortDesc found
    if found.length = 1 then (some (sorted.headD 0), ctxDiscount)
    else
      let original := sorted.headD 0
      match ctxDiscount with
      | some d => (some original, some d)
      | none =>
        if 1 < found.length ∧ original ≠ 0 ∧ 10 * sorted.getLastD 0 < 9 * original then
          (some original, some (sorted.getLastD 0))
        else (some original, none)
  else (none, ctxDiscount)

/-- Decimal rendering with thousands separators, `Number.toLocaleString`. -/
def commaRevGo : Nat → List Char → List Char
  | _, [] => []
  | k, c :: rest =>
    if k ≠ 0 ∧ k % 3 = 0 then ',' :: c :: commaRevGo (k + 1) rest
    else c :: commaRevGo (k + 1) rest

def toLocaleStringKR (n : Nat) : String :=
  ⟨(commaRevGo 0 (toString n).data.reverse).reverse⟩

/-- The price block of a NaverProductData record. -/
structure PriceInfo where
  original : Option Nat
  discounted : Option Nat
  currency : String
  formatted : String
deriving DecidableEq

/-- ProductParser.extractPrice over the collected selector texts plus the
`product:price:amount` meta content (already parsed to a number; `none` when
the tag is absent). -/
def extractPrice (texts : List String) (metaPrice : Option Nat) : PriceInfo :=
  let acc := collectPrices texts
  let resolved := resolvePrices acc.foundPrices acc.discounted
  match resolved.1 with
  | some v =>
    { original := some v
      discounted := resolved.2
      currency := "KRW"
      formatted :=
        if acc.formatted ≠ "" then acc.formatted
        else toLocaleStringKR v ++ "원" }
  | none =>
    match metaPrice with
    | some mp =>
      { original := some mp
        discounted := resolved.2
        currency := "KRW"
        formatted := toLocaleStringKR mp ++ "원" }
    | none =>
      { original := none
        discounted := resolved.2
        currency := "KRW"
        formatted :=
          if acc.formatted ≠ "" then acc.formatted else "가격 정보 없음" }

/-! ## Image extraction (ProductParser.extractImages) -/

/-- An img element as seen by extractImages: the src, data-src and
data-original attributes (empty string = absent). -/
structure ImgEl where
  src : String
  dataSrc : String
  dataOriginal : String
deriving DecidableEq

/-- Attribute coalescing `$(element).attr("src") || $(element).attr("data-src") ||
$(element).attr("data-original")`. -/
def elSrc (e : ImgEl) : String := jsStrOr e.src (jsStrOr e.dataSrc e.dataOriginal)

/-- The extension allowlist of isValidImageUrl. -/
def imageExts : List (List Char) :=
  ["jpg".data, "jpeg".data, "png".data, "gif".data, "webp".data]

/-- Does one alternative of `(jpg|jpeg|png|gif|webp)($|\?)` match at the head
of `cs` (case-insensitively)? -/
def extAfterDot (cs : List Char) : Bool :=
  imageExts.any fun ext =>
    decide ((cs.take ext.length).map Char.toLower = ext) &&
      (match cs.drop ext.length with
       | [] => true
       | c :: _ => c == '?')

/-- The regex test `/\.(jpg|jpeg|png|gif|webp)($|\?)/i` of isValidImageUrl:
some position starts a dot followed by an allowlisted extension ending the
string or followed by a query separator. -/
def hasImageExt : List Char → Bool
  | [] => false
  | c :: rest => (c == '.' && extAfterDot rest) || hasImageExt rest

/-- ProductParser.isValidImageUrl. -/
def isValidImageUrl (url : String) : Bool :=
  (strStartsWith url "http" || strStartsWith url "//") && hasImageExt url.data

/-- The low-quality pattern set of isLowQualityImage (all lowercase; the
regex is case-insensitive). -/
def lowQualityPatterns : List String :=
  ["thumb", "icon", "logo", "banner", "_small", "_s.", "40x40", "50x50", "100x100"]

/-- ProductParser.isLowQualityImage:
`/thumb|icon|logo|banner|_small|_s\.|40x40|50x50|100x100/i.test(url)`. -/
def isLowQualityImage (url : String) : Bool :=
  lowQualityPatterns.any fun p => listInfixOf p.data (url.data.map Char.toLower)

/-- Model of `src.startsWith("//") ? "https:" + src : src`. -/
def resolveImageUrl (src : String) : String :=
  if strStartsWith src "//" then "https:" ++ src else src

/-- The body of the per-element callback of extractImages (after the cap
check): validate the raw src, resolve the protocol-relative form, then push
unless duplicate or low quality. -/
def processImg (images : List String) (e : ImgEl) : List String :=
  let src := elSrc e
  if src ≠ "" ∧ isValidImageUrl src = true then
    let fullUrl := resolveImageUrl src
    if fullUrl ∉ images ∧ isLowQualityImage fullUrl = false then images ++ [fullUrl]
    else images
  else images

/-- The inner `.each` loop of extractImages over one selector's matched
elements, stopping once the configured maximum is reached. -/
def imgInner (maxImages : Nat) : List ImgEl → List String → List String
  | [], images => images
  | e :: rest, images =>
    if maxImages ≤ images.length then images
    else imgInner maxImages rest (processImg images e)

/-- The outer selector loop of extractImages, breaking when the inner loop
hit the cap. -/
def imgOuter (maxImages : Nat) : List (List ImgEl) → List String → List String
  | [], images => images
  | g :: gs, images =>
    let images2 := imgInner maxImages g images
    if maxImages ≤ images2.length then images2
    else imgOuter maxImages gs images2

/-- ProductParser.extractImages over the matched element lists of the ten
image selectors (one inner list per selector, in cascade order). -/
def extractImages (groups : List (List ImgEl)) (maxImages : Nat) : List String :=
  imgOuter maxImages groups []

/-! ## Batch orchestration (NaverScraper.scrapeMultipleProducts) -/

/-- The slice of a NaverProductData record that the batch layer handles: the
parser stores the request URL in the record (parseProductData sets
`url: url`), which ties each success back to its input. -/
structure ProductData where
  url : String
  title : String
deriving DecidableEq

/-- Observable timing/visit events of one batch run, in order: `visit u` when
scrapeProduct is invoked for `u`, `wait ms` when `delay(ms)` is awaited. -/
inductive BatchEvent
  | visit (url : String)
  | wait (ms : Nat)
deriving DecidableEq

/-- Accumulated batch state: the `success` and `failed` arrays plus the event
trace. -/
structure BatchAcc where
  success : List ProductData
  failed : List (String × String)
  events : List BatchEvent
deriving DecidableEq

/-- The for loop of scrapeMultipleProducts. `result` is the outcome of
`this.scrapeProduct` per URL (all its failures are AppErrors: scrapeProduct
wraps unexpected exceptions into one). Empty URLs are skipped by
`if (!url) continue`. After a success a delay of `delayBetween` runs unless
the item is the last of the array or the delay is zero; after a failure with
status 429 a single extended delay of `delayBetween * 2` runs. -/
def runBatchGo (result : String → Except AppError ProductData) (delayBetween : Nat) :
    List String → BatchAcc → BatchAcc
  | [], acc => acc
  | url :: rest, acc =>
    if url = "" then runBatchGo result delayBetween rest acc
    else
      let acc0 := { acc with events := acc.events ++ [BatchEvent.visit url] }
      match result url with
      | .ok productData =>
        let acc1 := { acc0 with success := acc0.success ++ [productData] }
        let acc2 :=
          if rest ≠ [] ∧ 0 < delayBetween then
            { acc1 with events := acc1.events ++ [BatchEvent.wait delayBetween] }
          else acc1
        runBatchGo result delayBetween rest acc2
      | .error e =>
        let acc1 := { acc0 with failed := acc0.failed ++ [(url, e.message)] }
        let acc2 :=
          if e.statusCode = 429 then
            { acc1 with events := acc1.events ++ [BatchEvent.wait (delayBetween * 2)] }
          else acc1
        runBatchGo result delayBetween rest acc2

/-- NaverScraper.scrapeMultipleProducts. -/
def scrapeMultipleProducts (result : String → Except AppError ProductData)
    (urls : List String) (delayBetween : Nat) : BatchAcc :=
  runBatchGo result delayBetween urls ⟨[], [], []⟩

/-! ## Concrete fixtures used by witnesses and counterexamples -/

/-- A well-formed product URL as parsed by `new URL`. -/
def urlSample : Option UrlParts := some ⟨"https:", "smartstore.naver.com", "/products/123"⟩

/-- A parseable URL with the right hostname and product segment but an ftp
scheme. -/
def urlFtp : Option UrlParts := some ⟨"ftp:", "smartstore.naver.com", "/products/123"⟩

/-- A scrapeProduct oracle where the first URL is rate limited and the rest
succeed. -/
def rateLimitedFirst : String → Except AppError ProductData := fun u =>
  if u = "u1" then .error ⟨"Too many requests - rate limited by server", 429⟩
  else .ok ⟨u, "title"⟩

/-- A scrapeProduct oracle that always succeeds, echoing the URL into the
record as parseProductData does. -/
def alwaysOk : String → Except AppError ProductData := fun u => .ok ⟨u, "title"⟩

/-! ## Fetcher lemmas -/

theorem fetchLoop_zero (outcomes : Nat → AttemptOutcome) (retries attempt : Nat)
    (last : Option CaughtError) :
    fetchLoop outcomes retries 0 attempt last = (.error (finalThrow last), 0) := rfl

theorem fetchLoop_succ (outcomes : Nat → AttemptOutcome) (retries fuel attempt : Nat)
    (last : Option CaughtError) :
    fetchLoop outcomes retries (fuel + 1) attempt last
      = match attemptOnce (outcomes attempt) with
        | .ok r => (.ok r, 1)
        | .error e =>
          match catchAction retries attempt e with
          | .throwNow a => (.error a, 1)
          | .breakLoop => (.error (finalThrow (some e)), 1)
          | .continueLoop =>
            let rest := fetchLoop outcomes retries fuel (attempt + 1) (some e)
            (rest.1, rest.2 + 1) := rfl

theorem catchAction_budget (retries attempt : Nat) (e : CaughtError) (h : retries < attempt) :
    catchAction retries attempt e = catchAction 0 1 e := by
  cases e with
  | app a =>
    simp only [catchAction]
    split_ifs <;> first | rfl | omega
  | axios c =>
    cases c <;> simp only [catchAction] <;> first | rfl | (split_ifs <;> first | rfl | omega)

theorem catchAction_continue (retries attempt : Nat) (e : CaughtError)
    (hle : attempt ≤ retries) (h : catchAction 1 1 e = .continueLoop) :
    catchAction retries attempt e = .continueLoop := by
  cases e with
  | app a =>
    simp only [catchAction] at h ⊢
    split_ifs at h ⊢ <;> first | rfl | omega
  | axios c =>
    cases c <;> simp only [catchAction] at h ⊢ <;>
      first
        | exact h
        | (split_ifs at h ⊢ <;> first | rfl | omega)

theorem retryable_spec (o : AttemptOutcome) (h : retryableOutcome o = true) :
    ∃ e, attemptOnce o = .error e ∧ catchAction 1 1 e = .continueLoop := by
  unfold retryableOutcome at h
  cases ho : attemptOnce o with
  | ok r => rw [ho] at h; simp at h
  | error e =>
    rw [ho] at h
    refine ⟨e, rfl, ?_⟩
    by_cases hc : catchAction 1 1 e = .continueLoop
    · exact hc
    · simp [hc] at h

theorem fetchLoop_last (outcomes : Nat → AttemptOutcome) (retries attempt : Nat)
    (h : retries < attempt) (hr : retryableOutcome (outcomes attempt) = true)
    (last : Option CaughtError) :
    fetchLoop outcomes retries 1 attempt last
      = (.error (lastClassifiedFailure (outcomes attempt)), 1) := by
  obtain ⟨e, he, hc⟩ := retryable_spec _ hr
  have hb := catchAction_budget retries attempt e h
  have h1 : fetchLoop outcomes retries 1 attempt last
      = fetchLoop outcomes retries (0 + 1) attempt last := rfl
  unfold lastClassifiedFailure
  rw [h1, fetchLoop_succ, he]
  simp only [hb]
  cases hca : catchAction 0 1 e <;> simp [hca, fetchLoop_zero]

theorem fetchLoop_all_retryable (outcomes : Nat → AttemptOutcome) (retries : Nat) :
    ∀ fuel attempt last, attempt + fuel = retries + 2 → 1 ≤ fuel →
      (∀ i, attempt ≤ i → i ≤ retries + 1 → retryableOutcome (outcomes i) = true) →
      fetchLoop outcomes retries fuel attempt last
        = (.error (lastClassifiedFailure (outcomes (retries + 1))), fuel) := by
  intro fuel
  induction fuel with
  | zero => intro attempt last hsum hfuel hall; omega
  | succ n ih =>
    intro attempt last hsum hfuel hall
    by_cases hn : n = 0
    · subst hn
      have hatt : attempt = retries + 1 := by omega
      subst hatt
      exact fetchLoop_last outcomes retries (retries + 1) (by omega)
        (hall _ le_rfl le_rfl) last
    · have hle : attempt ≤ retries := by omega
      obtain ⟨e, he, hc⟩ := retryable_spec _ (hall attempt le_rfl (by omega))
      have hcont := catchAction_continue retries attempt e hle hc
      rw [fetchLoop_succ, he]
      simp only [hcont]
      rw [ih (attempt + 1) (some e) (by omega) (by omega)
        (fun i hi1 hi2 => hall i (by omega) hi2)]

/-! ## Claim C1 -/

/-- Claim C1: with maxRetries = N and every attempt failing with a retryable
outcome, fetchProductPage performs exactly N + 1 HTTP attempts, never more,
and surfaces the classification of the last failure (the last thrown
AppError, or the generic failure when the last error was never classified),
as computed by lastClassifiedFailure. -/
theorem fetchProductPage_retry_budget (url : Option UrlParts) (retries : Nat)
    (outcomes : Nat → AttemptOutcome)
    (hvalid : isValidNaverProductUrl url = true)
    (hfail : ∀ i, 1 ≤ i → i ≤ retries + 1 → retryableOutcome (outcomes i) = true) :
    fetchProductPage url retries outcomes
      = (.error (lastClassifiedFailure (outcomes (retries + 1))), retries + 1) := by
  unfold fetchProductPage
  rw [hvalid]
  simp only [if_true]
  exact fetchLoop_all_retryable outcomes retries (retries + 1) 1 none
    (by omega) (by omega) hfail

/-- Claim C1 witness: three attempts for retries = 2 against an endpoint
that always answers 429, surfacing the rate-limit classification. -/
theorem fetchProductPage_retry_budget_witness :
    fetchProductPage urlSample 2 (fun _ => .response 429 true "x")
      = (.error ⟨"Too many requests - rate limited by server", 429⟩, 3) :=
  fetchProductPage_retry_budget urlSample 2 (fun _ => .response 429 true "x")
    rfl (fun _ _ _ => rfl)

/-! ## Claim C5 -/

/-- Claim C5 counterexample: with a budget of retries = 3 (four permitted
attempts), a connection-refused transport outcome on the first attempt is
surfaced after exactly one attempt, classified 503, instead of being retried
until the attempt budget is exhausted. -/
theorem connRefused_counterexample :
    fetchProductPage urlSample 3 (fun _ => .axiosFailure .econnrefused)
      = (.error ⟨"Connection refused by server", 503⟩, 1) ∧ (1 : Nat) ≠ 3 + 1 :=
  ⟨rfl, by decide⟩

/-- Claim C5 amended: a connection-refused attempt outcome is classified as
ServiceUnavailable (status 503) and surfaced immediately, with no further
attempts, regardless of the configured retry count. -/
theorem connRefused_fail_fast (url : Option UrlParts) (retries : Nat)
    (outcomes : Nat → AttemptOutcome)
    (hvalid : isValidNaverProductUrl url = true)
    (h1 : outcomes 1 = .axiosFailure .econnrefused) :
    fetchProductPage url retries outcomes
      = (.error ⟨"Connection refused by server", 503⟩, 1) := by
  unfold fetchProductPage
  rw [hvalid]
  simp only [if_true]
  rw [fetchLoop_succ, h1]
  rfl

/-- Claim C5 amended witness. -/
theorem connRefused_fail_fast_witness :
    fetchProductPage urlSample 5 (fun _ => .axiosFailure .econnrefused)
      = (.error ⟨"Connection refused by server", 503⟩, 1) :=
  connRefused_fail_fast urlSample 5 (fun _ => .axiosFailure .econnrefused) rfl rfl

/-! ## Claim C6 -/

/-- Claim C6: an HTTP 404 on the first attempt makes fetchProductPage fail
immediately with the NotFound classification after exactly one HTTP request,
for every configured retry count. -/
theorem fetch404_first_attempt (url : Option UrlParts) (retries : Nat)
    (outcomes : Nat → AttemptOutcome) (html : Bool) (body : String)
    (hvalid : isValidNaverProductUrl url = true)
    (h404 : outcomes 1 = .response 404 html body) :
    fetchProductPage url retries outcomes = (.error ⟨"Product not found", 404⟩, 1) := by
  unfold fetchProductPage
  rw [hvalid]
  simp only [if_true]
  rw [fetchLoop_succ, h404]
  rfl

/-- Claim C6 witness: one attempt even with five retries configured. -/
theorem fetch404_first_attempt_witness :
    fetchProductPage urlSample 5 (fun _ => .response 404 true "nope")
      = (.error ⟨"Product not found", 404⟩, 1) :=
  fetch404_first_attempt urlSample 5 (fun _ => .response 404 true "nope")
    true "nope" rfl rfl

/-! ## Claim C7 -/

/-- Claim C7 counterexample: the URL validation of fetchProductPage never
inspects the scheme, so an ftp URL with the expected hostname and product
segment is accepted and an HTTP request is issued (attempt count 1, success),
instead of failing with InvalidInput before any network call. -/
theorem ftpScheme_counterexample :
    isValidNaverProductUrl urlFtp = true ∧
    fetchProductPage urlFtp 0 (fun _ => .response 200 true "page")
      = (.ok ⟨"page", 200⟩, 1) :=
  ⟨rfl, rfl⟩

/-- Claim C7 amended: validity only requires a parseable URL whose hostname
is smartstore.naver.com and whose path contains "/products/" (the scheme is
ignored); every input failing that test is rejected with InvalidInput
(status 400) before any HTTP attempt is issued. -/
theorem invalidUrl_no_request (url : Option UrlParts) (retries : Nat)
    (outcomes : Nat → AttemptOutcome)
    (h : isValidNaverProductUrl url = false) :
    fetchProductPage url retries outcomes
      = (.error ⟨"Invalid Naver SmartStore product URL", 400⟩, 0) := by
  unfold fetchProductPage
  rw [h]
  rfl

/-- Claim C7 amended witness: a wrong hostname is rejected with no attempt. -/
theorem invalidUrl_no_request_witness :
    fetchProductPage (some ⟨"https:", "example.com", "/products/123"⟩) 3
      (fun _ => .response 200 true "page")
      = (.error ⟨"Invalid Naver SmartStore product URL", 400⟩, 0) :=
  invalidUrl_no_request (some ⟨"https:", "example.com", "/products/123"⟩) 3
    (fun _ => .response 200 true "page") rfl

/-! ## Claim C2 -/

/-- Claim C2 counterexample: a page whose collected price candidates include
the texts "35,000원" and "24,900원 특가" but also a larger candidate
"50,000원". The descending sort makes the maximum the original price, so the
extraction yields original 50000, not 35000 as the claim requires for every
page that merely includes the two texts. -/
theorem extractPrice_superset_counterexample :
    ("35,000원" ∈ (["50,000원", "35,000원", "24,900원 특가"] : List String)) ∧
    ("24,900원 특가" ∈ (["50,000원", "35,000원", "24,900원 특가"] : List String)) ∧
    (extractPrice ["50,000원", "35,000원", "24,900원 특가"] none).original = some 50000 ∧
    (extractPrice ["50,000원", "35,000원", "24,900원 특가"] none).original ≠ some 35000 :=
  ⟨by decide, by decide, rfl, by decide⟩

/-- Claim C2 amended: for a page whose collected price candidates are exactly
the texts "35,000원" and "24,900원 특가" (in either order), price extraction
yields original 35000, the context-marked 24900 as discounted, and currency
KRW; with further candidates the maximum collected value becomes the
original instead. -/
theorem extractPrice_disambiguation (texts : List String)
    (h : texts = ["35,000원", "24,900원 특가"] ∨ texts = ["24,900원 특가", "35,000원"]) :
    (extractPrice texts none).original = some 35000 ∧
    (extractPrice texts none).discounted = some 24900 ∧
    (extractPrice texts none).currency = "KRW" := by
  rcases h with h | h <;> subst h <;> exact ⟨rfl, rfl, rfl⟩

/-- Claim C2 witness. -/
theorem extractPrice_disambiguation_witness :
    (extractPrice ["35,000원", "24,900원 특가"] none).original = some 35000 ∧
    (extractPrice ["35,000원", "24,900원 특가"] none).discounted = some 24900 ∧
    (extractPrice ["35,000원", "24,900원 특가"] none).currency = "KRW" :=
  extractPrice_disambiguation ["35,000원", "24,900원 특가"] (Or.inl rfl)

/-! ## Sorting and price-collection lemmas -/

theorem sortDesc_perm (l : List Nat) : (sortDesc l).Perm l :=
  List.perm_insertionSort _ l

theorem sortDesc_sorted (l : List Nat) : (sortDesc l).Sorted (fun a b => a ≥ b) :=
  List.sorted_insertionSort _ l

theorem sorted_head_max {l : List Nat} (hs : l.Sorted (fun a b => a ≥ b)) {x : Nat}
    (hx : x ∈ l) : x ≤ l.headD 0 := by
  cases l with
  | nil => cases hx
  | cons a t =>
    simp only [List.headD_cons]
    rcases List.mem_cons.mp hx with h | h
    · exact le_of_eq h
    · exact List.rel_of_sorted_cons hs x h

theorem getLastD_mem : ∀ {l : List Nat}, l ≠ [] → ∀ d, l.getLastD d ∈ l
  | [], h, _ => absurd rfl h
  | [a], _, d => by simp [List.getLastD]
  | a :: b :: t, _, d => by
    rw [List.getLastD_cons]
    exact List.mem_cons_of_mem a (getLastD_mem (List.cons_ne_nil b t) a)

theorem sorted_getLast_min : ∀ {l : List Nat}, l.Sorted (fun a b => a ≥ b) →
    ∀ d, ∀ x ∈ l, l.getLastD d ≤ x
  | [], _, _, x, hx => by cases hx
  | [a], _, d, x, hx => by
    simp only [List.mem_singleton] at hx
    simp [List.getLastD, hx]
  | a :: b :: t, hs, d, x, hx => by
    rw [List.getLastD_cons]
    rcases List.mem_cons.mp hx with h | h
    · rw [h]
      exact List.rel_of_sorted_cons hs _ (getLastD_mem (List.cons_ne_nil b t) a)
    · exact sorted_getLast_min hs.of_cons a x h

theorem collectText_discounted_none (text : String) (acc : PriceAcc)
    (hm : hasDiscountMarker text = false) (h : acc.discounted = none) :
    (collectText text acc).discounted = none := by
  unfold collectText
  generalize wonScan text.data = ms
  induction ms generalizing acc with
  | nil => exact h
  | cons m ms ih =>
    simp only [List.foldl_cons]
    by_cases hv : 0 < digitsValue m
    · exact ih _ (by simp [hv, hm, h])
    · exact ih _ (by simp [hv, h])

theorem collectText_pos (text : String) (acc : PriceAcc)
    (h : ∀ x ∈ acc.foundPrices, 0 < x) :
    ∀ x ∈ (collectText text acc).foundPrices, 0 < x := by
  unfold collectText
  generalize wonScan text.data = ms
  induction ms generalizing acc with
  | nil => exact h
  | cons m ms ih =>
    simp only [List.foldl_cons]
    by_cases hv : 0 < digitsValue m
    · refine ih _ ?_
      intro x hx
      simp only [hv, if_pos] at hx
      rcases List.mem_append.mp hx with hx | hx
      · exact h x hx
      · rw [List.mem_singleton.mp hx]; exact hv
    · refine ih _ ?_
      simpa [hv] using h

theorem collectFold_discounted_none : ∀ (ts : List String) (acc : PriceAcc),
    (∀ t ∈ ts, hasDiscountMarker t = false) → acc.discounted = none →
    (ts.foldl (fun acc t => collectText t acc) acc).discounted = none
  | [], _, _, h0 => h0
  | t :: ts, acc, hall, h0 => by
    simp only [List.foldl_cons]
    exact collectFold_discounted_none ts _
      (fun u hu => hall u (List.mem_cons_of_mem _ hu))
      (collectText_discounted_none t acc (hall t (List.mem_cons_self _ _)) h0)

theorem collectPrices_discounted_none (texts : List String)
    (h : ∀ t ∈ texts, hasDiscountMarker t = false) :
    (collectPrices texts).discounted = none :=
  collectFold_discounted_none texts ⟨[], none, ""⟩ h rfl

theorem collectFold_pos : ∀ (ts : List String) (acc : PriceAcc),
    (∀ x ∈ acc.foundPrices, 0 < x) →
    ∀ x ∈ (ts.foldl (fun acc t => collectText t acc) acc).foundPrices, 0 < x
  | [], _, h0 => h0
  | t :: ts, acc, h0 => by
    simp only [List.foldl_cons]
    exact collectFold_pos ts _ (collectText_pos t acc h0)

theorem collectPrices_pos (texts : List String) :
    ∀ x ∈ (collectPrices texts).foundPrices, 0 < x :=
  collectFold_pos texts ⟨[], none, ""⟩ (by intro x hx; cases hx)

/-! ## Claim C3 -/

/-- Claim C3 counterexample (the 90 percent boundary): candidates 10000 and
9000 carry no contextual discount marker and the smallest equals exactly 90
percent of the maximum, so the claim as stated requires discounted = 9000;
the code's strict test `lowest < original * 0.9` leaves discounted absent. -/
theorem extractPrice_boundary_counterexample :
    (∀ t ∈ (["10,000원", "9,000원"] : List String), hasDiscountMarker t = false) ∧
    (collectPrices ["10,000원", "9,000원"]).foundPrices = [10000, 9000] ∧
    10 * 9000 ≤ 9 * 10000 ∧
    (extractPrice ["10,000원", "9,000원"] none).discounted = none := by
  refine ⟨?_, rfl, by omega, rfl⟩
  intro t ht
  simp only [List.mem_cons, List.mem_singleton, List.not_mem_nil, or_false] at ht
  rcases ht with h | h <;> rw [h] <;> rfl

theorem headD_mem : ∀ {l : List Nat}, l ≠ [] → l.headD 0 ∈ l
  | [], h => absurd rfl h
  | _ :: _, _ => by simp

theorem extractPrice_discounted (texts : List String) (mp : Option Nat) :
    (extractPrice texts mp).discounted
      = (resolvePrices (collectPrices texts).foundPrices (collectPrices texts).discounted).2 := by
  unfold extractPrice
  cases hr : (resolvePrices (collectPrices texts).foundPrices (collectPrices texts).discounted).1 with
  | some v => simp [hr]
  | none => cases mp <;> simp [hr]

theorem extractPrice_original (texts : List String) (mp : Option Nat) (v : Nat)
    (h : (resolvePrices (collectPrices texts).foundPrices (collectPrices texts).discounted).1
      = some v) :
    (extractPrice texts mp).original = some v := by
  unfold extractPrice
  simp [h]

theorem resolvePrices_no_ctx (found : List Nat) (hlen : 2 ≤ found.length)
    (hpos : ∀ x ∈ found, 0 < x) :
    resolvePrices found none
      = (some ((sortDesc found).headD 0),
         if 10 * (sortDesc found).getLastD 0 < 9 * (sortDesc found).headD 0
         then some ((sortDesc found).getLastD 0) else none) := by
  have hperm := sortDesc_perm found
  have hlen2 : (sortDesc found).length = found.length := hperm.length_eq
  have hne : sortDesc found ≠ [] := by
    intro h0; rw [h0] at hlen2; simp at hlen2; omega
  have hM : 0 < (sortDesc found).headD 0 :=
    hpos _ (hperm.mem_iff.mp (headD_mem hne))
  simp only [resolvePrices]
  rw [if_pos (show 0 < found.length by omega)]
  rw [if_neg (show ¬ found.length = 1 by omega)]
  by_cases hc : 10 * (sortDesc found).getLastD 0 < 9 * (sortDesc found).headD 0
  · rw [if_pos ⟨by omega, by omega, hc⟩, if_pos hc]
  · rw [if_neg (fun hAnd => hc hAnd.2.2), if_neg hc]

/-- Claim C3 amended: with two or more collected prices and no contextual
discount marker anywhere, extraction returns the maximum as original and
sets discounted to the smallest collected value exactly when the smallest is
strictly below 90 percent of the maximum (10 * m < 9 * M), leaving it absent
otherwise — in particular absent at the exact 90 percent boundary. -/
theorem extractPrice_discount_heuristic (texts : List String)
    (hnomark : ∀ t ∈ texts, hasDiscountMarker t = false)
    (hlen : 2 ≤ (collectPrices texts).foundPrices.length) :
    ∃ m M, m ∈ (collectPrices texts).foundPrices ∧ M ∈ (collectPrices texts).foundPrices ∧
      (∀ x ∈ (collectPrices texts).foundPrices, m ≤ x ∧ x ≤ M) ∧
      (extractPrice texts none).original = some M ∧
      (extractPrice texts none).discounted = (if 10 * m < 9 * M then some m else none) := by
  have hd := collectPrices_discounted_none texts hnomark
  have hpos := collectPrices_pos texts
  have hres := resolvePrices_no_ctx (collectPrices texts).foundPrices hlen hpos
  have hperm := sortDesc_perm (collectPrices texts).foundPrices
  have hlen2 : (sortDesc (collectPrices texts).foundPrices).length
      = (collectPrices texts).foundPrices.length := hperm.length_eq
  have hne : sortDesc (collectPrices texts).foundPrices ≠ [] := by
    intro h0; rw [h0] at hlen2; simp at hlen2; omega
  refine ⟨(sortDesc (collectPrices texts).foundPrices).getLastD 0,
    (sortDesc (collectPrices texts).foundPrices).headD 0, ?_, ?_, ?_, ?_, ?_⟩
  · exact hperm.mem_iff.mp (getLastD_mem hne 0)
  · exact hperm.mem_iff.mp (headD_mem hne)
  · intro x hx
    have hx2 : x ∈ sortDesc (collectPrices texts).foundPrices := hperm.mem_iff.mpr hx
    exact ⟨sorted_getLast_min (sortDesc_sorted _) 0 x hx2,
      sorted_head_max (sortDesc_sorted _) hx2⟩
  · refine extractPrice_original texts none _ ?_
    rw [hd, hres]
  · rw [extractPrice_discounted texts none, hd, hres]

/-- Claim C3 amended witness: candidates 10000 and 8000, no markers; the
smallest is strictly below 90 percent of the maximum, so discounted = 8000. -/
theorem extractPrice_discount_heuristic_witness :
    ∃ m M, m ∈ (collectPrices ["10,000원", "8,000원"]).foundPrices ∧
      M ∈ (collectPrices ["10,000원", "8,000원"]).foundPrices ∧
      (∀ x ∈ (collectPrices ["10,000원", "8,000원"]).foundPrices, m ≤ x ∧ x ≤ M) ∧
      (extractPrice ["10,000원", "8,000원"] none).original = some M ∧
      (extractPrice ["10,000원", "8,000원"] none).discounted
        = (if 10 * m < 9 * M then some m else none) :=
  extractPrice_discount_heuristic ["10,000원", "8,000원"]
    (by decide) (by decide)

/-! ## Claim C4 -/

/-- Claim C4 counterexample: a document with no selector candidate at all
and a 3-character og:title. No title candidate of length in [4, 200) exists
anywhere, yet extraction does not fail with FieldMissing: the meta fallback
has no length bound, validation only rejects lengths below 3, and the
pipeline returns a record whose title has length 3, outside [4, 200). -/
theorem titlePipeline_short_meta_counterexample :
    titlePipeline ⟨[], "abc", "", ""⟩ = .ok "abc" ∧ "abc".length < 4 :=
  ⟨rfl, by decide⟩

/-- Claim C4 amended: the pipeline either returns a nonempty title of length
at least 3 (selector candidates are additionally shorter than 200, but the
meta fallback is unbounded above), or fails with a classified AppError of
status 400 or 404; it fails with the FieldMissing error (404) whenever no
selector candidate passes the (3, 200) filter and the meta fallback trims to
empty. -/
theorem titlePipeline_amended (d : TitleDoc) :
    (∀ t, titlePipeline d = .ok t → t ≠ "" ∧ 3 ≤ t.length) ∧
    (∀ e, titlePipeline d = .error e → e.statusCode = 400 ∨ e.statusCode = 404) ∧
    ((∀ t ∈ d.selectorTexts, goodSelectorTitle (jsTrim t) = false) →
      jsTrim (metaTitleOf d) = "" →
      titlePipeline d = .error ⟨"Product title not found", 404⟩) := by
  refine ⟨?_, ?_, ?_⟩
  · intro t h
    unfold titlePipeline at h
    cases he : extractTitle d with
    | error e0 => rw [he] at h; simp only [] at h; cases h
    | ok t0 =>
      rw [he] at h
      simp only [] at h
      cases hval : validateTitle t0 with
      | error e1 => rw [hval] at h; simp only [] at h; cases h
      | ok u =>
        rw [hval] at h
        simp only [] at h
        have ht0 : t0 = t := by simpa using h
        unfold validateTitle at hval
        by_cases hv : t0 = "" ∨ t0.length < 3
        · rw [if_pos hv] at hval; cases hval
        · push_neg at hv
          rw [← ht0]
          exact ⟨hv.1, by omega⟩
  · intro e h
    unfold titlePipeline at h
    cases he : extractTitle d with
    | error e0 =>
      rw [he] at h
      simp only [] at h
      have he2 : e0 = e := by simpa using h
      unfold extractTitle at he
      cases hf : d.selectorTexts.find? (fun t => goodSelectorTitle (jsTrim t)) with
      | some t1 => rw [hf] at he; simp only [] at he; cases he
      | none =>
        rw [hf] at he
        simp only [] at he
        by_cases hc : metaTitleOf d ≠ "" ∧ jsTrim (metaTitleOf d) ≠ ""
        · rw [if_pos hc] at he; cases he
        · rw [if_neg hc] at he
          have h3 : (⟨"Product title not found", 404⟩ : AppError) = e0 := by
            simpa using he
          right
          rw [← he2, ← h3]
    | ok t0 =>
      rw [he] at h
      simp only [] at h
      cases hval : validateTitle t0 with
      | error e1 =>
        rw [hval] at h
        simp only [] at h
        have he2 : e1 = e := by simpa using h
        unfold validateTitle at hval
        by_cases hv : t0 = "" ∨ t0.length < 3
        · rw [if_pos hv] at hval
          have h4 : (⟨"Invalid product title", 400⟩ : AppError) = e1 := by
            simpa using hval
          left
          rw [← he2, ← h4]
        · rw [if_neg hv] at hval; cases hval
      | ok u => rw [hval] at h; simp only [] at h; cases h
  · intro hsel hmt
    unfold titlePipeline extractTitle
    rw [List.find?_eq_none.mpr (fun t ht => by rw [hsel t ht]; simp)]
    rw [if_neg (fun hc => hc.2 hmt)]

/-- Claim C4 amended witness: the empty document yields the FieldMissing
error, and a good selector candidate yields a title of length at least 3. -/
theorem titlePipeline_amended_witness :
    titlePipeline ⟨[], "", "", ""⟩ = .error ⟨"Product title not found", 404⟩ ∧
    ("Nice product" ≠ "" ∧ 3 ≤ "Nice product".length) :=
  ⟨(titlePipeline_amended ⟨[], "", "", ""⟩).2.2 (fun t ht => absurd ht (List.not_mem_nil t)) rfl,
   (titlePipeline_amended ⟨["Nice product"], "", "", ""⟩).1 "Nice product" rfl⟩

/-! ## Image extraction lemmas -/

/-- The properties claim C9 asserts of every extracted URL. -/
def imgOk (u : String) : Prop :=
  hasImageExt u.data = true ∧ isLowQualityImage u = false ∧ strStartsWith u "http" = true

theorem hasImageExt_append (xs ys : List Char) (h : hasImageExt ys = true) :
    hasImageExt (xs ++ ys) = true := by
  induction xs with
  | nil => exact h
  | cons c cs ih => simp [hasImageExt, ih]

theorem resolved_imgOk (src : String) (hval : isValidImageUrl src = true)
    (hlow : isLowQualityImage (resolveImageUrl src) = false) :
    imgOk (resolveImageUrl src) := by
  unfold isValidImageUrl at hval
  rw [Bool.and_eq_true, Bool.or_eq_true] at hval
  obtain ⟨hor, hext⟩ := hval
  unfold resolveImageUrl at hlow ⊢
  by_cases hss : strStartsWith src "//" = true
  · rw [if_pos hss] at hlow ⊢
    refine ⟨?_, hlow, ?_⟩
    · show hasImageExt ("https:".data ++ src.data) = true
      exact hasImageExt_append _ _ hext
    · show ("http".data.isPrefixOf ("https:".data ++ src.data)) = true
      rw [List.isPrefixOf_iff_prefix]
      exact ⟨'s' :: ':' :: src.data, rfl⟩
  · rw [if_neg hss] at hlow ⊢
    rcases hor with h | h
    · exact ⟨hext, hlow, h⟩
    · exact absurd h hss

theorem processImg_cases (images : List String) (e : ImgEl) :
    processImg images e = images ∨
    (isValidImageUrl (elSrc e) = true ∧
     resolveImageUrl (elSrc e) ∉ images ∧
     isLowQualityImage (resolveImageUrl (elSrc e)) = false ∧
     processImg images e = images ++ [resolveImageUrl (elSrc e)]) := by
  unfold processImg
  by_cases h1 : elSrc e ≠ "" ∧ isValidImageUrl (elSrc e) = true
  · rw [if_pos h1]
    by_cases h2 : resolveImageUrl (elSrc e) ∉ images ∧
        isLowQualityImage (resolveImageUrl (elSrc e)) = false
    · rw [if_pos h2]
      exact Or.inr ⟨h1.2, h2.1, h2.2, rfl⟩
    · rw [if_neg h2]
      exact Or.inl rfl
  · rw [if_neg h1]
    exact Or.inl rfl

theorem processImg_inv (images : List String) (e : ImgEl)
    (hnd : images.Nodup) (hok : ∀ u ∈ images, imgOk u) :
    (processImg images e).Nodup ∧ (∀ u ∈ processImg images e, imgOk u) := by
  rcases processImg_cases images e with h | ⟨hval, hnew, hlow, h⟩
  · rw [h]; exact ⟨hnd, hok⟩
  · rw [h]
    constructor
    · simp [List.nodup_append, hnd, hnew]
    · intro u hu
      rcases List.mem_append.mp hu with hu | hu
      · exact hok u hu
      · rw [List.mem_singleton.mp hu]
        exact resolved_imgOk _ hval hlow

theorem processImg_len (images : List String) (e : ImgEl) :
    (processImg images e).length ≤ images.length + 1 := by
  rcases processImg_cases images e with h | ⟨_, _, _, h⟩ <;> rw [h] <;> simp

theorem imgInner_inv (maxImages : Nat) : ∀ (es : List ImgEl) (images : List String),
    images.Nodup → (∀ u ∈ images, imgOk u) → images.length ≤ maxImages →
    (imgInner maxImages es images).Nodup ∧
    (∀ u ∈ imgInner maxImages es images, imgOk u) ∧
    (imgInner maxImages es images).length ≤ maxImages
  | [], images, hnd, hok, hlen => ⟨hnd, hok, hlen⟩
  | e :: es, images, hnd, hok, hlen => by
    unfold imgInner
    by_cases hc : maxImages ≤ images.length
    · rw [if_pos hc]
      exact ⟨hnd, hok, hlen⟩
    · rw [if_neg hc]
      obtain ⟨h1, h2⟩ := processImg_inv images e hnd hok
      have h3 : (processImg images e).length ≤ maxImages :=
        le_trans (processImg_len images e) (by omega)
      exact imgInner_inv maxImages es (processImg images e) h1 h2 h3

theorem imgOuter_inv (maxImages : Nat) : ∀ (gs : List (List ImgEl)) (images : List String),
    images.Nodup → (∀ u ∈ images, imgOk u) → images.length ≤ maxImages →
    (imgOuter maxImages gs images).Nodup ∧
    (∀ u ∈ imgOuter maxImages gs images, imgOk u) ∧
    (imgOuter maxImages gs images).length ≤ maxImages
  | [], images, hnd, hok, hlen => ⟨hnd, hok, hlen⟩
  | g :: gs, images, hnd, hok, hlen => by
    unfold imgOuter
    obtain ⟨h1, h2, h3⟩ := imgInner_inv maxImages g images hnd hok hlen
    by_cases hc : maxImages ≤ (imgInner maxImages g images).length
    · rw [if_pos hc]
      exact ⟨h1, h2, h3⟩
    · rw [if_neg hc]
      exact imgOuter_inv maxImages gs (imgInner maxImages g images) h1 h2 h3

/-! ## Claim C9 -/

/-- Claim C9: every extracted image list is duplicate-free, capped at the
configured maximum, contains only URLs that pass the extension allowlist, do
not match the low-quality pattern set, and carry an http scheme
(protocol-relative sources are resolved to https); and on the two-image
example only the non-low-quality second URL is returned. -/
theorem extractImages_spec (groups : List (List ImgEl)) (maxImages : Nat) :
    (extractImages groups maxImages).Nodup ∧
    (extractImages groups maxImages).length ≤ maxImages ∧
    (∀ u ∈ extractImages groups maxImages,
      hasImageExt u.data = true ∧ isLowQualityImage u = false ∧
      strStartsWith u "http" = true) ∧
    extractImages [[⟨"//cdn/x_small.jpg", "", ""⟩, ⟨"https://cdn/y.jpg", "", ""⟩]] 10
      = ["https://cdn/y.jpg"] := by
  obtain ⟨h1, h2, h3⟩ := imgOuter_inv maxImages groups []
    List.nodup_nil (fun u hu => absurd hu (List.not_mem_nil u)) (Nat.zero_le _)
  exact ⟨h1, h3, h2, rfl⟩

/-- Claim C9 witness: the extracted URL of the example satisfies the imgOk
predicates. -/
theorem extractImages_spec_witness :
    hasImageExt "https://cdn/y.jpg".data = true ∧
    isLowQualityImage "https://cdn/y.jpg" = false ∧
    strStartsWith "https://cdn/y.jpg" "http" = true :=
  (extractImages_spec [[⟨"//cdn/x_small.jpg", "", ""⟩, ⟨"https://cdn/y.jpg", "", ""⟩]] 10).2.2.1
    "https://cdn/y.jpg" (by
      rw [(extractImages_spec [] 0).2.2.2]
      exact List.mem_singleton.mpr rfl)

/-! ## Claim C8 -/

/-- Claim C8 counterexample: in a batch of three URLs whose first item fails
RateLimited, the wait after that failure is doubled (6000) but the wait
before the third item falls back to the configured base (3000): the doubling
does not persist for the remainder of the batch, contradicting
"doubled and never resets". -/
theorem rateLimitDelay_counterexample :
    (scrapeMultipleProducts rateLimitedFirst ["u1", "u2", "u3"] 3000).events
      = [.visit "u1", .wait 6000, .visit "u2", .wait 3000, .visit "u3"] ∧
    (3000 : Nat) < 6000 :=
  ⟨rfl, by omega⟩

/-- Claim C8 amended: a RateLimited failure triggers one extended delay of
twice the configured base immediately after the failed item — so the delay
before item 2 (2 x base) is strictly greater than the delay before item 1
(none) — but the inter-request delay for later items returns to the
configured base rather than staying doubled. -/
theorem rateLimit_single_extended_delay (result : String → Except AppError ProductData)
    (d : Nat) (u1 u2 u3 : String) (p2 p3 : ProductData) (e1 : AppError)
    (hd : 0 < d) (h1 : u1 ≠ "") (h2 : u2 ≠ "") (h3 : u3 ≠ "")
    (hr1 : result u1 = .error e1) (he1 : e1.statusCode = 429)
    (hr2 : result u2 = .ok p2) (hr3 : result u3 = .ok p3) :
    (scrapeMultipleProducts result [u1, u2, u3] d).events
      = [.visit u1, .wait (d * 2), .visit u2, .wait d, .visit u3] ∧
    0 < d * 2 := by
  constructor
  · simp [scrapeMultipleProducts, runBatchGo, h1, h2, h3, hr1, hr2, hr3, he1, hd]
  · omega

/-- Claim C8 amended witness. -/
theorem rateLimit_single_extended_delay_witness :
    (scrapeMultipleProducts rateLimitedFirst ["u1", "u2", "u3"] 3000).events
      = [.visit "u1", .wait (3000 * 2), .visit "u2", .wait 3000, .visit "u3"] ∧
    0 < 3000 * 2 :=
  rateLimit_single_extended_delay rateLimitedFirst 3000 "u1" "u2" "u3"
    ⟨"u2", "title"⟩ ⟨"u3", "title"⟩
    ⟨"Too many requests - rate limited by server", 429⟩
    (by omega) (by decide) (by decide) (by decide) rfl rfl rfl rfl

/-! ## Claim C10 -/

/-- Claim C10 counterexample: the batch loop skips falsy URLs, so the input
URL "" lands in neither the succeeded nor the failed list. -/
theorem emptyUrl_skipped_counterexample :
    ("" : String) ∈ [""] ∧
    scrapeMultipleProducts alwaysOk [""] 3000 = ⟨[], [], []⟩ :=
  ⟨List.mem_singleton.mpr rfl, rfl⟩

theorem runBatchGo_count (result : String → Except AppError ProductData)
    (d : Nat) (u : String) (hu : u ≠ "")
    (hok : ∀ v p, result v = .ok p → p.url = v) :
    ∀ (urls : List String) (acc : BatchAcc),
    ((runBatchGo result d urls acc).success.map ProductData.url).count u
      + ((runBatchGo result d urls acc).failed.map Prod.fst).count u
      = (acc.success.map ProductData.url).count u + (acc.failed.map Prod.fst).count u
        + urls.count u
  | [], acc => by simp [runBatchGo]
  | url :: rest, acc => by
    unfold runBatchGo
    by_cases he : url = ""
    · rw [if_pos he]
      rw [runBatchGo_count result d u hu hok rest acc]
      have hne : ¬ url = u := fun hh => hu (hh.symm.trans he)
      rw [List.count_cons]
      simp [hne]
    · rw [if_neg he]
      cases hr : result url with
      | ok p =>
        simp only []
        have hp : p.url = url := hok url p hr
        by_cases hc : rest ≠ [] ∧ 0 < d
        · rw [if_pos hc]
          rw [runBatchGo_count result d u hu hok rest _]
          simp [List.count_append, List.count_cons, hp]
          omega
        · rw [if_neg hc]
          rw [runBatchGo_count result d u hu hok rest _]
          simp [List.count_append, List.count_cons, hp]
          omega
      | error e =>
        simp only []
        by_cases hc : e.statusCode = 429
        · rw [if_pos hc]
          rw [runBatchGo_count result d u hu hok rest _]
          simp [List.count_append, List.count_cons]
          omega
        · rw [if_neg hc]
          rw [runBatchGo_count result d u hu hok rest _]
          simp [List.count_append, List.count_cons]
          omega

/-- Claim C10 amended: the batch result partitions the non-empty input URLs
(empty strings are skipped by the `if (!url) continue` guard): counted with
multiplicity, every non-empty URL occurs in the succeeded records (by their
stored url) plus the failed entries exactly as often as in the input, with
no early termination; for oracles that echo the URL into the record, as
parseProductData does. -/
theorem batch_partition (result : String → Except AppError ProductData)
    (urls : List String) (d : Nat) (u : String) (hu : u ≠ "")
    (hok : ∀ v p, result v = .ok p → p.url = v) :
    ((scrapeMultipleProducts result urls d).success.map ProductData.url).count u
      + ((scrapeMultipleProducts result urls d).failed.map Prod.fst).count u
      = urls.count u := by
  have h := runBatchGo_count result d u hu hok urls ⟨[], [], []⟩
  simpa [scrapeMultipleProducts] using h

/-- Claim C10 amended witness: a two-URL batch where both items succeed; the
URL "a" is counted exactly once across the two lists. -/
theorem batch_partition_witness :
    ((scrapeMultipleProducts alwaysOk ["a", "b"] 3000).success.map ProductData.url).count "a"
      + ((scrapeMultipleProducts alwaysOk ["a", "b"] 3000).failed.map Prod.fst).count "a"
      = (["a", "b"] : List String).count "a" :=
  batch_partition alwaysOk ["a", "b"] 3000 "a" (by decide)
    (fun v p hp => by
      simp [alwaysOk] at hp
      rw [← hp])
